import Mathlib

/-! ExpenseOwl: billing-cycle bounds, month filter and HTML escaping.

A shallow embedding of `getMonthBounds`, `getMonthExpenses` and `escapeHTML`
from `internal/web/templates/functions.js`, together with the part of the
ECMAScript `Date` object those functions rely on.

Modelling conventions

* A time value is an `Int` number of milliseconds since the epoch.  A `Date`
  object is an `Option Int`; `none` is the Invalid Date (time value NaN).  A
  JavaScript number that may be NaN is likewise an `Option Int`.
* The abstract operations `Day`, `DayFromYear`, `YearFromTime`, `MonthFromTime`,
  `DateFromTime`, `MakeDay`, `MakeTime`, `MakeDate`, `TimeClip` follow the
  ECMAScript definitions, including the rule of the `Date` constructor that a
  year argument in `0..99` stands for `1900 + year`.
* The local time zone is a parameter `tz`, the constant offset of local time
  from UTC in milliseconds (a zone without daylight-saving transitions).
* `x.toISOString()` throws on an Invalid Date and otherwise prints the time
  value with millisecond precision, which `new Date(string)` reads back
  unchanged; a thrown exception is the result `none`.
* The globals `startDate` and `currentDate` are explicit arguments.
* Months are numbered as `getMonth` numbers them, 0 = January .. 11 = December.

The claims are named `C1` .. `C10`.  Where a claim needs it, its theorem is
stated for the references the code handles: a local year that the `Date`
constructor takes literally (not `0..99`) and whose cycles are representable
dates (`Usable`, `Supported`).
-/

namespace ExpenseOwl

/-! ## ECMAScript time values -/

def msPerSecond : Int := 1000
def msPerMinute : Int := 60000
def msPerHour : Int := 3600000
def msPerDay : Int := 86400000

/-- Largest magnitude of a time value a `Date` can hold. -/
def maxTime : Int := 8640000000000000

def Day (t : Int) : Int := t / msPerDay

def DaysInYear (y : Int) : Int :=
  if y % 4 ≠ 0 then 365
  else if y % 100 ≠ 0 then 366
  else if y % 400 ≠ 0 then 365
  else 366

def DayFromYear (y : Int) : Int :=
  365 * (y - 1970) + (y - 1969) / 4 - (y - 1901) / 100 + (y - 1601) / 400

/-- The year containing day number `d`: ECMAScript asks for the largest `y`
with `DayFromYear y ≤ d`; it is found from the mean year length of
146097 / 400 days, corrected by at most one year (`yearOfDay_spec`). -/
def yearOfDay (d : Int) : Int :=
  let y0 := 1970 + (400 * d) / 146097
  if d < DayFromYear y0 then y0 - 1
  else if DayFromYear (y0 + 1) ≤ d then y0 + 1
  else y0

def YearFromTime (t : Int) : Int := yearOfDay (Day t)

/-- Leap flag of a year: 1 in a leap year, 0 otherwise. -/
def leapFlag (y : Int) : Int := if DaysInYear y = 366 then 1 else 0

def InLeapYear (t : Int) : Int := leapFlag (YearFromTime t)

def DayWithinYear (t : Int) : Int := Day t - DayFromYear (YearFromTime t)

/-- Month number (0 = January) of day `d` within a year with leap flag `l`. -/
def monthOfYearDay (d l : Int) : Int :=
  if d < 31 then 0
  else if d < 59 + l then 1
  else if d < 90 + l then 2
  else if d < 120 + l then 3
  else if d < 151 + l then 4
  else if d < 181 + l then 5
  else if d < 212 + l then 6
  else if d < 243 + l then 7
  else if d < 273 + l then 8
  else if d < 304 + l then 9
  else if d < 334 + l then 10
  else 11

/-- Number of days of the year that precede month `m` (0 = January). -/
def monthStart (m l : Int) : Int :=
  if m = 0 then 0
  else if m = 1 then 31
  else if m = 2 then 59 + l
  else if m = 3 then 90 + l
  else if m = 4 then 120 + l
  else if m = 5 then 151 + l
  else if m = 6 then 181 + l
  else if m = 7 then 212 + l
  else if m = 8 then 243 + l
  else if m = 9 then 273 + l
  else if m = 10 then 304 + l
  else 334 + l

def MonthFromTime (t : Int) : Int := monthOfYearDay (DayWithinYear t) (InLeapYear t)

def DateFromTime (t : Int) : Int :=
  DayWithinYear t - monthStart (MonthFromTime t) (InLeapYear t) + 1

def HourFromTime (t : Int) : Int := (t / msPerHour) % 24
def MinFromTime (t : Int) : Int := (t / msPerMinute) % 60
def SecFromTime (t : Int) : Int := (t / msPerSecond) % 60
def msFromTime (t : Int) : Int := t % msPerSecond

def MakeTime (hour min sec ms : Int) : Int :=
  hour * msPerHour + min * msPerMinute + sec * msPerSecond + ms

/-- Day number of the `date`-th day of month `month` of `year`; months outside
`0..11` carry into the year, days outside the month carry into the months. -/
def MakeDay (year month date : Int) : Int :=
  let ym := year + month / 12
  let mn := month % 12
  DayFromYear ym + monthStart mn (leapFlag ym) + date - 1

def MakeDate (day time : Int) : Int := day * msPerDay + time

/-- The year argument of the `Date` constructor: `0..99` means `1900..1999`. -/
def MakeFullYear (year : Int) : Int :=
  if 0 ≤ year ∧ year ≤ 99 then 1900 + year else year

def LocalTime (tz t : Int) : Int := t + tz

def UTC (tz t : Int) : Int := t - tz

def TimeClip (t : Int) : Option Int :=
  if -maxTime ≤ t ∧ t ≤ maxTime then some t else none

/-! ## The `Date` object -/

/-- The constructor `new Date(year, month, date, hours, minutes, seconds, ms)`
on local-time fields; `date` may be NaN. -/
def newDate (tz year month : Int) (date : Option Int) (hours minutes seconds ms : Int) :
    Option Int :=
  date.bind fun dt =>
    TimeClip (UTC tz (MakeDate (MakeDay (MakeFullYear year) month dt)
      (MakeTime hours minutes seconds ms)))

def getFullYear (tz t : Int) : Int := YearFromTime (LocalTime tz t)
def getMonth (tz t : Int) : Int := MonthFromTime (LocalTime tz t)
def getDate (tz t : Int) : Int := DateFromTime (LocalTime tz t)
def getHours (tz t : Int) : Int := HourFromTime (LocalTime tz t)
def getMinutes (tz t : Int) : Int := MinFromTime (LocalTime tz t)
def getSeconds (tz t : Int) : Int := SecFromTime (LocalTime tz t)
def getMilliseconds (tz t : Int) : Int := msFromTime (LocalTime tz t)

/-- The call `new Date(x.toISOString())`: an exception on an Invalid Date,
the same time value otherwise. -/
def viaISOString (x : Option Int) : Option Int := x

/-- The call `Math.min(a, b)` where `b` may be NaN. -/
def mathMin (a : Int) (b : Option Int) : Option Int := b.map fun x => min a x

/-- The comparison `a < b` where `b` may be NaN. -/
def jsLt (a : Int) (b : Option Int) : Bool :=
  match b with
  | some x => decide (a < x)
  | none => false

/-! ## `getMonthBounds` -/

structure DateRange where
  start : Int
  end_ : Int
  deriving DecidableEq, Repr

def getMonthBounds (tz startDate : Int) (date : Int) : Option DateRange :=
  let localDate := date
  if startDate = 1 then do
    let startLocal :=
      newDate tz (getFullYear tz localDate) (getMonth tz localDate) (some 1) 0 0 0 0
    let endLocal :=
      newDate tz (getFullYear tz localDate) (getMonth tz localDate + 1) (some 0) 23 59 59 999
    let s ← viaISOString startLocal
    let e ← viaISOString endLocal
    pure { start := s, end_ := e }
  else
    let thisMonthStartDate := startDate
    let prevMonthStartDate := startDate
    let currentMonth := getMonth tz localDate
    let currentYear := getFullYear tz localDate
    let daysInCurrentMonth :=
      (newDate tz currentYear (currentMonth + 1) (some 0) 0 0 0 0).map (getDate tz)
    let thisMonthStartDate := mathMin thisMonthStartDate daysInCurrentMonth
    let prevMonth := if currentMonth = 0 then 11 else currentMonth - 1
    let prevYear := if currentMonth = 0 then currentYear - 1 else currentYear
    let daysInPrevMonth :=
      (newDate tz prevYear (prevMonth + 1) (some 0) 0 0 0 0).map (getDate tz)
    let prevMonthStartDate := mathMin prevMonthStartDate daysInPrevMonth
    if jsLt (getDate tz localDate) thisMonthStartDate then do
      let startLocal := newDate tz prevYear prevMonth prevMonthStartDate 0 0 0 0
      let endLocal :=
        newDate tz currentYear currentMonth (thisMonthStartDate.map (· - 1)) 23 59 59 999
      let s ← viaISOString startLocal
      let e ← viaISOString endLocal
      pure { start := s, end_ := e }
    else do
      let nextMonth := if currentMonth = 11 then 0 else currentMonth + 1
      let nextYear := if currentMonth = 11 then currentYear + 1 else currentYear
      let daysInNextMonth :=
        (newDate tz nextYear (nextMonth + 1) (some 0) 0 0 0 0).map (getDate tz)
      let nextMonthStartDate := mathMin startDate daysInNextMonth
      let startLocal := newDate tz currentYear currentMonth thisMonthStartDate 0 0 0 0
      let endLocal :=
        newDate tz nextYear nextMonth (nextMonthStartDate.map (· - 1)) 23 59 59 999
      let s ← viaISOString startLocal
      let e ← viaISOString endLocal
      pure { start := s, end_ := e }

/-! ## Calendar vocabulary of the specification -/

/-- Gregorian leap-year rule. -/
def isLeapYear (y : Int) : Prop := y % 4 = 0 ∧ (y % 100 ≠ 0 ∨ y % 400 = 0)

instance (y : Int) : Decidable (isLeapYear y) := by unfold isLeapYear; infer_instance

/-- Number of days of month `m` (0 = January .. 11 = December) of year `y`. -/
def daysInMonth (y m : Int) : Int :=
  if m = 1 then (if isLeapYear y then 29 else 28)
  else if m = 3 ∨ m = 5 ∨ m = 8 ∨ m = 10 then 30
  else 31

/-- Length of month `m` in a year with leap flag `l`. -/
def monthLength (m l : Int) : Int :=
  if m = 1 then 28 + l else if m = 3 ∨ m = 5 ∨ m = 8 ∨ m = 10 then 30 else 31

/-- Day number of day `d` of month `m` of year `y`. -/
def dayNumber (y m d : Int) : Int := DayFromYear y + monthStart m (leapFlag y) + d - 1

/-- The instant at which local clocks show `tod` milliseconds past midnight on
day `d` of month `m` of year `y`. -/
def localInstant (tz y m d tod : Int) : Int := UTC tz (MakeDate (dayNumber y m d) tod)

/-- The month after `(y, m)`. -/
def monthAfter (y m : Int) : Int × Int := if m = 11 then (y + 1, 0) else (y, m + 1)

/-- The month before `(y, m)`. -/
def monthBefore (y m : Int) : Int × Int := if m = 0 then (y - 1, 11) else (y, m - 1)

/-- Years the `Date` constructor takes literally and whose every day is a
representable time value in every zone within a day of UTC. -/
def Usable (y : Int) : Prop := ¬ (0 ≤ y ∧ y ≤ 99) ∧ -271820 ≤ y ∧ y ≤ 275759

instance (y : Int) : Decidable (Usable y) := by unfold Usable; infer_instance

/-- Zone offsets of at most one day. -/
def ZoneOK (tz : Int) : Prop := -msPerDay ≤ tz ∧ tz ≤ msPerDay

instance (tz : Int) : Decidable (ZoneOK tz) := by unfold ZoneOK; infer_instance

/-- The `(year, month)` arguments of the `endLocal` constructor call in the
custom-cycle case of `getMonthBounds`: the month the code names for the end. -/
def endMonthArgument (tz startDate date : Int) : Int × Int :=
  let localDate := date
  let currentMonth := getMonth tz localDate
  let currentYear := getFullYear tz localDate
  let daysInCurrentMonth :=
    (newDate tz currentYear (currentMonth + 1) (some 0) 0 0 0 0).map (getDate tz)
  let thisMonthStartDate := mathMin startDate daysInCurrentMonth
  if jsLt (getDate tz localDate) thisMonthStartDate then
    (currentYear, currentMonth)
  else
    let nextMonth := if currentMonth = 11 then 0 else currentMonth + 1
    let nextYear := if currentMonth = 11 then currentYear + 1 else currentYear
    (nextYear, nextMonth)

/-- The day-of-month argument of the `endLocal` constructor call in the
custom-cycle case of `getMonthBounds`: `thisMonthStartDate - 1` in the first
branch, `nextMonthStartDate - 1` in the second. -/
def endDayArgument (tz startDate date : Int) : Option Int :=
  let localDate := date
  let currentMonth := getMonth tz localDate
  let currentYear := getFullYear tz localDate
  let daysInCurrentMonth :=
    (newDate tz currentYear (currentMonth + 1) (some 0) 0 0 0 0).map (getDate tz)
  let thisMonthStartDate := mathMin startDate daysInCurrentMonth
  if jsLt (getDate tz localDate) thisMonthStartDate then
    thisMonthStartDate.map (· - 1)
  else
    let nextMonth := if currentMonth = 11 then 0 else currentMonth + 1
    let nextYear := if currentMonth = 11 then currentYear + 1 else currentYear
    let daysInNextMonth :=
      (newDate tz nextYear (nextMonth + 1) (some 0) 0 0 0 0).map (getDate tz)
    let nextMonthStartDate := mathMin startDate daysInNextMonth
    nextMonthStartDate.map (· - 1)

/-! ## `getMonthExpenses` -/

/-- An expense record as the month filter sees it: `date` is the time value of
`new Date(exp.date)`, or `none` when the stored string does not parse; `id`
stands for the remaining fields. -/
structure Expense where
  id : Nat
  date : Option Int
  deriving DecidableEq, Repr

/-- The comparison `a >= b` of a possibly invalid Date with a valid one. -/
def jsGe (a : Option Int) (b : Int) : Bool :=
  match a with
  | some x => decide (b ≤ x)
  | none => false

/-- The comparison `a <= b` of a possibly invalid Date with a valid one. -/
def jsLe (a : Option Int) (b : Int) : Bool :=
  match a with
  | some x => decide (x ≤ b)
  | none => false

/-- The comparator `(a, b) => new Date(b.date) - new Date(a.date)`; a NaN
difference counts as 0, as the sort treats it. -/
def compareDates (a b : Expense) : Int :=
  match b.date, a.date with
  | some y, some x => y - x
  | _, _ => 0

/-- Insert `a` into a list, before the first element it does not have to
follow. -/
def insertSorted {α : Type} (cmp : α → α → Int) (a : α) : List α → List α
  | [] => [a]
  | b :: l => if cmp a b ≤ 0 then a :: b :: l else b :: insertSorted cmp a l

/-- The method `Array.prototype.sort(cmp)`, a stable sort: elements are
inserted from the right, so that an element stays ahead of the later elements
it compares equal to. -/
def arraySort {α : Type} (cmp : α → α → Int) : List α → List α
  | [] => []
  | a :: l => insertSorted cmp a (arraySort cmp l)

def getMonthExpenses (tz startDate currentDate : Int) (expenses : List Expense) :
    Option (List Expense) := do
  let w ← getMonthBounds tz startDate currentDate
  let start := w.start
  let end_ := w.end_
  pure (arraySort compareDates (expenses.filter fun exp =>
    let expDate := exp.date
    jsGe expDate start && jsLe expDate end_))

/-! ## `escapeHTML` -/

/-- A JavaScript value as `escapeHTML` sees it: a string, or anything else. -/
inductive JSValue where
  | string (s : List Char)
  | other (tag : Nat)
  deriving DecidableEq, Repr

def apostrophe : Char := Char.ofNat 39
def doubleQuote : Char := Char.ofNat 34

/-- The character class of the pattern: ampersand, angle brackets and the two
quotes. -/
def isTag (c : Char) : Bool :=
  c = '&' || c = '<' || c = '>' || c = apostrophe || c = doubleQuote

/-- The lookup of a matched character in the object literal of entities. -/
def entityTable (tag : Char) : Option (List Char) :=
  if tag = '&' then some ['&', 'a', 'm', 'p', ';']
  else if tag = '<' then some ['&', 'l', 't', ';']
  else if tag = '>' then some ['&', 'g', 't', ';']
  else if tag = apostrophe then some ['&', '#', '3', '9', ';']
  else if tag = doubleQuote then some ['&', 'q', 'u', 'o', 't', ';']
  else none

/-- The replacement callback: the entity of the match, or the match itself. -/
def replacement (tag : Char) : List Char := (entityTable tag).getD [tag]

/-- The call `str.replace(pattern, fn)` with the global one-character pattern:
every match is replaced, everything else is copied. -/
def replaceAll : List Char → List Char
  | [] => []
  | c :: cs => if isTag c then replacement c ++ replaceAll cs else c :: replaceAll cs

def escapeHTML (str : JSValue) : JSValue :=
  match str with
  | JSValue.string s => JSValue.string (replaceAll s)
  | v => v

/-! ## Vocabulary of the claims -/

/-- This month's cycle start day: `min(startDate, daysInMonth(Y, M))` for the
local year `Y` and month `M` of `r`. -/
def thisStart (tz sd r : Int) : Int :=
  min sd (daysInMonth (getFullYear tz r) (getMonth tz r))

/-- The month before the local month of `r`, as `(py, pm)`. -/
def prevMonthOf (tz r : Int) : Int × Int := monthBefore (getFullYear tz r) (getMonth tz r)

/-- The month after the local month of `r`, as `(ny, nm)`. -/
def nextMonthOf (tz r : Int) : Int × Int := monthAfter (getFullYear tz r) (getMonth tz r)

/-- The previous month's cycle start day, clamped against that month's own
length. -/
def prevStart (tz sd r : Int) : Int :=
  min sd (daysInMonth (prevMonthOf tz r).1 (prevMonthOf tz r).2)

/-- The next month's cycle start day, clamped against that month's own
length. -/
def nextStart (tz sd r : Int) : Int :=
  min sd (daysInMonth (nextMonthOf tz r).1 (nextMonthOf tz r).2)

/-- The cycle that starts in month `(y, m)`: from the clamped start day of that
month to the day before the clamped start day of the following month. -/
def cycleOf (tz sd y m : Int) : DateRange :=
  { start := localInstant tz y m (min sd (daysInMonth y m)) 0
    end_ := localInstant tz (monthAfter y m).1 (monthAfter y m).2
      (min sd (daysInMonth (monthAfter y m).1 (monthAfter y m).2) - 1) 86399999 }

/-- Local clocks and calendars show the given reading at instant `t`. -/
def ReadsAs (tz t y m d h mi s ms : Int) : Prop :=
  getFullYear tz t = y ∧ getMonth tz t = m ∧ getDate tz t = d ∧ getHours tz t = h ∧
    getMinutes tz t = mi ∧ getSeconds tz t = s ∧ getMilliseconds tz t = ms

instance (tz t y m d h mi s ms : Int) : Decidable (ReadsAs tz t y m d h mi s ms) := by
  unfold ReadsAs; infer_instance

/-- Reference instants for which every constructor call of `getMonthBounds`
takes its year literally and yields a representable date: the local year and
its two neighbours are usable and the zone is within a day of UTC. -/
def Supported (tz r : Int) : Prop :=
  ZoneOK tz ∧ Usable (getFullYear tz r - 1) ∧ Usable (getFullYear tz r) ∧
    Usable (getFullYear tz r + 1)

instance (tz r : Int) : Decidable (Supported tz r) := by unfold Supported; infer_instance

/-- Number of calendar days a range covers, first and last day included. -/
def spanDays (tz : Int) (w : DateRange) : Int :=
  Day (LocalTime tz w.end_) - Day (LocalTime tz w.start) + 1

/-- The records of the window, as the specification words it: those with a
date `d` such that `start ≤ d ≤ end`. -/
def inWindow (w : DateRange) (exp : Expense) : Prop :=
  ∃ d, exp.date = some d ∧ w.start ≤ d ∧ d ≤ w.end_

instance (w : DateRange) (exp : Expense) : Decidable (inWindow w exp) :=
  match h : exp.date with
  | some d =>
    if hd : w.start ≤ d ∧ d ≤ w.end_ then isTrue ⟨d, h, hd⟩
    else isFalse (fun ⟨d2, h2, hd2⟩ => hd (by rw [h] at h2; cases h2; exact hd2))
  | none => isFalse (fun ⟨d2, h2, _⟩ => by rw [h] at h2; cases h2)

/-- Character-by-character escaping as the specification words it: each of the
five special characters becomes its entity, any other character is kept. -/
def escapeChar (c : Char) : List Char :=
  if c = '&' then "&amp;".toList
  else if c = '<' then "&lt;".toList
  else if c = '>' then "&gt;".toList
  else if c = apostrophe then "&#39;".toList
  else if c = doubleQuote then "&quot;".toList
  else [c]

/-- The five entities. -/
def entities : List (List Char) :=
  ["&amp;".toList, "&lt;".toList, "&gt;".toList, "&#39;".toList, "&quot;".toList]

/-! ## Calendar lemmas -/

theorem DayFromYear_succ (y : Int) : DayFromYear (y + 1) = DayFromYear y + DaysInYear y := by
  unfold DayFromYear DaysInYear
  split_ifs <;> omega

theorem DayFromYear_mono {a b : Int} (h : a ≤ b) : DayFromYear a ≤ DayFromYear b := by
  unfold DayFromYear
  omega

theorem DayFromYear_estimate_lo (d y0 : Int) (h : 146097 * (y0 - 1970) ≤ 400 * d) :
    DayFromYear (y0 - 1) ≤ d := by
  unfold DayFromYear
  omega

theorem DayFromYear_estimate_hi (d y0 : Int) (h : 400 * d < 146097 * (y0 - 1970) + 146097) :
    d < DayFromYear (y0 + 2) := by
  unfold DayFromYear
  omega

/-- The computed year is the one ECMAScript specifies. -/
theorem yearOfDay_spec (d : Int) :
    DayFromYear (yearOfDay d) ≤ d ∧ d < DayFromYear (yearOfDay d + 1) := by
  have hlo := DayFromYear_estimate_lo d (1970 + (400 * d) / 146097) (by omega)
  have hhi := DayFromYear_estimate_hi d (1970 + (400 * d) / 146097) (by omega)
  unfold yearOfDay
  simp only
  generalize 1970 + (400 * d) / 146097 = y0 at *
  split_ifs with h1 h2
  · rw [sub_add_cancel]; exact ⟨hlo, h1⟩
  · rw [show y0 + 1 + 1 = y0 + 2 by ring]; exact ⟨h2, hhi⟩
  · exact ⟨not_lt.mp h1, not_le.mp h2⟩

theorem yearOfDay_unique (d y : Int) (h1 : DayFromYear y ≤ d) (h2 : d < DayFromYear (y + 1)) :
    yearOfDay d = y := by
  have hs := yearOfDay_spec d
  by_contra hne
  rcases lt_or_gt_of_ne hne with hlt | hgt
  · have := DayFromYear_mono (show yearOfDay d + 1 ≤ y by omega)
    omega
  · have := DayFromYear_mono (show y + 1 ≤ yearOfDay d by omega)
    omega

theorem leapFlag_eq (y : Int) : leapFlag y = if isLeapYear y then 1 else 0 := by
  unfold leapFlag DaysInYear isLeapYear
  split_ifs <;> first | rfl | omega

theorem leapFlag_cases (y : Int) : leapFlag y = 0 ∨ leapFlag y = 1 := by
  rw [leapFlag_eq]; split_ifs <;> simp

theorem DaysInYear_eq (y : Int) : DaysInYear y = 365 + leapFlag y := by
  unfold leapFlag DaysInYear
  split_ifs <;> omega

theorem daysInMonth_eq (y m : Int) :
    daysInMonth y m =
      if m = 1 then 28 + leapFlag y else if m = 3 ∨ m = 5 ∨ m = 8 ∨ m = 10 then 30 else 31 := by
  unfold daysInMonth
  rw [leapFlag_eq]
  split_ifs <;> rfl

theorem daysInMonth_bounds (y m : Int) : 28 ≤ daysInMonth y m ∧ daysInMonth y m ≤ 31 := by
  rw [daysInMonth_eq]
  rcases leapFlag_cases y with h | h <;> rw [h] <;> split_ifs <;> omega

theorem daysInMonth_eq_monthLength (y m : Int) :
    daysInMonth y m = monthLength m (leapFlag y) := by
  rw [daysInMonth_eq]; rfl

theorem month_cases {m : Int} (h0 : 0 ≤ m) (h1 : m ≤ 11) :
    m = 0 ∨ m = 1 ∨ m = 2 ∨ m = 3 ∨ m = 4 ∨ m = 5 ∨ m = 6 ∨ m = 7 ∨ m = 8 ∨ m = 9 ∨ m = 10
      ∨ m = 11 := by omega

/-- The month table read forwards: the month found for a day of the year
contains that day. -/
theorem monthOfYearDay_spec (d l : Int) (h0 : 0 ≤ d) (h1 : d < 365 + l) :
    0 ≤ monthOfYearDay d l ∧ monthOfYearDay d l ≤ 11 ∧
      monthStart (monthOfYearDay d l) l ≤ d ∧
      d < monthStart (monthOfYearDay d l) l + monthLength (monthOfYearDay d l) l := by
  unfold monthOfYearDay
  by_cases c0 : d < 31
  · simp only [if_pos c0]
    rw [show monthStart 0 l = 0 from rfl, show monthLength 0 l = 31 from rfl]
    omega
  by_cases c1 : d < 59 + l
  · simp only [if_neg c0, if_pos c1]
    rw [show monthStart 1 l = 31 from rfl, show monthLength 1 l = 28 + l from rfl]
    omega
  by_cases c2 : d < 90 + l
  · simp only [if_neg c0, if_neg c1, if_pos c2]
    rw [show monthStart 2 l = 59 + l from rfl, show monthLength 2 l = 31 from rfl]
    omega
  by_cases c3 : d < 120 + l
  · simp only [if_neg c0, if_neg c1, if_neg c2, if_pos c3]
    rw [show monthStart 3 l = 90 + l from rfl, show monthLength 3 l = 30 from rfl]
    omega
  by_cases c4 : d < 151 + l
  · simp only [if_neg c0, if_neg c1, if_neg c2, if_neg c3, if_pos c4]
    rw [show monthStart 4 l = 120 + l from rfl, show monthLength 4 l = 31 from rfl]
    omega
  by_cases c5 : d < 181 + l
  · simp only [if_neg c0, if_neg c1, if_neg c2, if_neg c3, if_neg c4, if_pos c5]
    rw [show monthStart 5 l = 151 + l from rfl, show monthLength 5 l = 30 from rfl]
    omega
  by_cases c6 : d < 212 + l
  · simp only [if_neg c0, if_neg c1, if_neg c2, if_neg c3, if_neg c4, if_neg c5, if_pos c6]
    rw [show monthStart 6 l = 181 + l from rfl, show monthLength 6 l = 31 from rfl]
    omega
  by_cases c7 : d < 243 + l
  · simp only [if_neg c0, if_neg c1, if_neg c2, if_neg c3, if_neg c4, if_neg c5, if_neg c6, if_pos c7]
    rw [show monthStart 7 l = 212 + l from rfl, show monthLength 7 l = 31 from rfl]
    omega
  by_cases c8 : d < 273 + l
  · simp only [if_neg c0, if_neg c1, if_neg c2, if_neg c3, if_neg c4, if_neg c5, if_neg c6, if_neg c7, if_pos c8]
    rw [show monthStart 8 l = 243 + l from rfl, show monthLength 8 l = 30 from rfl]
    omega
  by_cases c9 : d < 304 + l
  · simp only [if_neg c0, if_neg c1, if_neg c2, if_neg c3, if_neg c4, if_neg c5, if_neg c6, if_neg c7, if_neg c8, if_pos c9]
    rw [show monthStart 9 l = 273 + l from rfl, show monthLength 9 l = 31 from rfl]
    omega
  by_cases c10 : d < 334 + l
  · simp only [if_neg c0, if_neg c1, if_neg c2, if_neg c3, if_neg c4, if_neg c5, if_neg c6, if_neg c7, if_neg c8, if_neg c9, if_pos c10]
    rw [show monthStart 10 l = 304 + l from rfl, show monthLength 10 l = 30 from rfl]
    omega
  simp only [if_neg c0, if_neg c1, if_neg c2, if_neg c3, if_neg c4, if_neg c5, if_neg c6, if_neg c7, if_neg c8, if_neg c9, if_neg c10]
  rw [show monthStart 11 l = 334 + l from rfl, show monthLength 11 l = 31 from rfl]
  omega

theorem monthLength_pos (m l : Int) (hl : l = 0 ∨ l = 1) : 28 ≤ monthLength m l := by
  unfold monthLength
  split_ifs <;> omega

theorem monthStart_step (m l : Int) (h0 : 0 ≤ m) (h1 : m ≤ 10) :
    monthStart (m + 1) l = monthStart m l + monthLength m l := by
  rcases month_cases h0 (by omega : m ≤ 11) with e | e | e | e | e | e | e | e | e | e | e | e <;>
    subst e
  · rw [show monthStart (0 + 1) l = 31 from rfl, show monthStart 0 l = 0 from rfl,
      show monthLength 0 l = 31 from rfl]
    omega
  · rw [show monthStart (1 + 1) l = 59 + l from rfl, show monthStart 1 l = 31 from rfl,
      show monthLength 1 l = 28 + l from rfl]
    omega
  · rw [show monthStart (2 + 1) l = 90 + l from rfl, show monthStart 2 l = 59 + l from rfl,
      show monthLength 2 l = 31 from rfl]
    omega
  · rw [show monthStart (3 + 1) l = 120 + l from rfl, show monthStart 3 l = 90 + l from rfl,
      show monthLength 3 l = 30 from rfl]
    omega
  · rw [show monthStart (4 + 1) l = 151 + l from rfl, show monthStart 4 l = 120 + l from rfl,
      show monthLength 4 l = 31 from rfl]
    omega
  · rw [show monthStart (5 + 1) l = 181 + l from rfl, show monthStart 5 l = 151 + l from rfl,
      show monthLength 5 l = 30 from rfl]
    omega
  · rw [show monthStart (6 + 1) l = 212 + l from rfl, show monthStart 6 l = 181 + l from rfl,
      show monthLength 6 l = 31 from rfl]
    omega
  · rw [show monthStart (7 + 1) l = 243 + l from rfl, show monthStart 7 l = 212 + l from rfl,
      show monthLength 7 l = 31 from rfl]
    omega
  · rw [show monthStart (8 + 1) l = 273 + l from rfl, show monthStart 8 l = 243 + l from rfl,
      show monthLength 8 l = 30 from rfl]
    omega
  · rw [show monthStart (9 + 1) l = 304 + l from rfl, show monthStart 9 l = 273 + l from rfl,
      show monthLength 9 l = 31 from rfl]
    omega
  · rw [show monthStart (10 + 1) l = 334 + l from rfl, show monthStart 10 l = 304 + l from rfl,
      show monthLength 10 l = 30 from rfl]
    omega
  · omega

theorem monthStart_mono (l : Int) (hl : l = 0 ∨ l = 1) (a b : Int) (ha : 0 ≤ a) (hab : a ≤ b)
    (hb : b ≤ 11) : monthStart a l ≤ monthStart b l := by
  have key : ∀ n, a ≤ n → (n ≤ 11 → monthStart a l ≤ monthStart n l) := by
    intro n hn
    refine Int.le_induction (P := fun n => n ≤ 11 → monthStart a l ≤ monthStart n l)
      (fun _ => le_refl _) ?_ n hn
    intro k hk ih h11
    have h1 := ih (by omega)
    have h2 := monthStart_step k l (by omega) (by omega)
    have h3 := monthLength_pos k l hl
    omega
  exact key b hab hb

theorem monthStart_last (l : Int) : monthStart 11 l + monthLength 11 l = 365 + l := by
  rw [show monthStart 11 l = 334 + l from rfl, show monthLength 11 l = 31 from rfl]
  omega

/-- The month table read backwards: a day inside month `m` is assigned `m`. -/
theorem monthOfYearDay_unique (d l m : Int) (hl : l = 0 ∨ l = 1) (hm0 : 0 ≤ m) (hm1 : m ≤ 11)
    (h0 : monthStart m l ≤ d) (h1 : d < monthStart m l + monthLength m l) :
    monthOfYearDay d l = m := by
  have hs0 : monthStart 0 l = 0 := rfl
  have hs11 := monthStart_last l
  have hlo : 0 ≤ d := by
    have := monthStart_mono l hl 0 m (le_refl _) hm0 hm1
    omega
  have hhi : d < 365 + l := by
    rcases eq_or_lt_of_le hm1 with e | e
    · subst e; omega
    · have a1 := monthStart_step m l hm0 (by omega)
      have a2 := monthStart_mono l hl (m + 1) 11 (by omega) (by omega) (le_refl _)
      have a3 := monthLength_pos 11 l hl
      omega
  obtain ⟨p0, p1, p2, p3⟩ := monthOfYearDay_spec d l hlo hhi
  generalize monthOfYearDay d l = k at *
  by_contra hne
  rcases lt_or_gt_of_ne hne with hlt | hgt
  · have a1 := monthStart_step k l p0 (by omega)
    have a2 := monthStart_mono l hl (k + 1) m (by omega) (by omega) hm1
    omega
  · have a1 := monthStart_step m l hm0 (by omega)
    have a2 := monthStart_mono l hl (m + 1) k (by omega) (by omega) p1
    omega

/-- Where a day number sits in its year. -/
theorem dayWithinYear_bounds (t : Int) :
    0 ≤ DayWithinYear t ∧ DayWithinYear t < 365 + InLeapYear t := by
  have h := yearOfDay_spec (Day t)
  rw [DayFromYear_succ, DaysInYear_eq] at h
  unfold DayWithinYear InLeapYear YearFromTime
  omega

/-- The fields read off a time value are a valid calendar date. -/
theorem fields_bounds (t : Int) :
    0 ≤ MonthFromTime t ∧ MonthFromTime t ≤ 11 ∧ 1 ≤ DateFromTime t ∧
      DateFromTime t ≤ daysInMonth (YearFromTime t) (MonthFromTime t) := by
  obtain ⟨hb0, hb1⟩ := dayWithinYear_bounds t
  obtain ⟨p0, p1, p2, p3⟩ := monthOfYearDay_spec (DayWithinYear t) (InLeapYear t) hb0 hb1
  rw [daysInMonth_eq_monthLength]
  unfold DateFromTime MonthFromTime
  unfold InLeapYear at *
  refine ⟨p0, p1, ?_, ?_⟩ <;> omega

/-- The day number of a time value, from its fields. -/
theorem Day_eq_dayNumber (t : Int) :
    Day t = dayNumber (YearFromTime t) (MonthFromTime t) (DateFromTime t) := by
  unfold dayNumber DateFromTime DayWithinYear InLeapYear
  omega

theorem monthStart_nonneg (m l : Int) (hl : l = 0 ∨ l = 1) (hm0 : 0 ≤ m) (hm1 : m ≤ 11) :
    0 ≤ monthStart m l := by
  have := monthStart_mono l hl 0 m (le_refl _) hm0 hm1
  rw [show monthStart 0 l = 0 from rfl] at this
  exact this

theorem monthStart_end_le (m l : Int) (hl : l = 0 ∨ l = 1) (hm0 : 0 ≤ m) (hm1 : m ≤ 11) :
    monthStart m l + monthLength m l ≤ 365 + l := by
  rcases eq_or_lt_of_le hm1 with e | e
  · subst e; exact le_of_eq (monthStart_last l)
  · have a1 := monthStart_step m l hm0 (by omega)
    have a2 := monthStart_mono l hl (m + 1) 11 (by omega) (by omega) (le_refl _)
    have a3 := monthLength_pos 11 l hl
    have a4 := monthStart_last l
    omega

/-- Reading the fields of the day built from a valid calendar date gives the
date back. -/
theorem fields_of_dayNumber (y m d t : Int) (hm0 : 0 ≤ m) (hm1 : m ≤ 11) (hd0 : 1 ≤ d)
    (hd1 : d ≤ daysInMonth y m) (ht : Day t = dayNumber y m d) :
    YearFromTime t = y ∧ MonthFromTime t = m ∧ DateFromTime t = d := by
  have hl := leapFlag_cases y
  rw [daysInMonth_eq_monthLength] at hd1
  have h0 := monthStart_nonneg m (leapFlag y) hl hm0 hm1
  have h1 := monthStart_end_le m (leapFlag y) hl hm0 hm1
  have hy : YearFromTime t = y := by
    unfold YearFromTime
    apply yearOfDay_unique
    · rw [ht]; unfold dayNumber; omega
    · rw [ht, DayFromYear_succ, DaysInYear_eq]; unfold dayNumber; omega
  have hmo : MonthFromTime t = m := by
    unfold MonthFromTime DayWithinYear InLeapYear
    rw [hy, ht]
    apply monthOfYearDay_unique _ _ _ hl hm0 hm1 <;> unfold dayNumber <;> omega
  refine ⟨hy, hmo, ?_⟩
  unfold DateFromTime DayWithinYear InLeapYear
  rw [hmo, hy, ht]
  unfold dayNumber
  omega

/-! ## The `Date` constructor and getters on calendar dates -/

theorem MakeDay_eq_dayNumber (y m d : Int) (hm0 : 0 ≤ m) (hm1 : m ≤ 11) :
    MakeDay y m d = dayNumber y m d := by
  unfold MakeDay dayNumber
  have h1 : m / 12 = 0 := by omega
  have h2 : m % 12 = m := by omega
  simp only [h1, h2, add_zero]

/-- Day 0 of the following month is the last day of the month. -/
theorem MakeDay_day_zero (y m : Int) (hm0 : 0 ≤ m) (hm1 : m ≤ 11) :
    MakeDay y (m + 1) 0 = dayNumber y m (daysInMonth y m) := by
  rw [daysInMonth_eq_monthLength]
  unfold MakeDay dayNumber
  rcases eq_or_lt_of_le hm1 with e | e
  · subst e
    have h1 : ((11 : Int) + 1) / 12 = 1 := by decide
    have h2 : ((11 : Int) + 1) % 12 = 0 := by decide
    simp only [h1, h2]
    rw [DayFromYear_succ, DaysInYear_eq, show monthStart 0 (leapFlag (y + 1)) = 0 from rfl]
    have := monthStart_last (leapFlag y)
    omega
  · have h1 : (m + 1) / 12 = 0 := by omega
    have h2 : (m + 1) % 12 = m + 1 := by omega
    simp only [h1, h2, add_zero]
    rw [monthStart_step m _ hm0 (by omega)]
    omega

/-- The first day of the following month comes right after the last day of
the month. -/
theorem dayNumber_monthAfter (y m d : Int) (hm0 : 0 ≤ m) (hm1 : m ≤ 11) :
    dayNumber (monthAfter y m).1 (monthAfter y m).2 d = dayNumber y m (daysInMonth y m + d) := by
  rw [daysInMonth_eq_monthLength]
  unfold monthAfter dayNumber
  split_ifs with h
  · subst h
    simp only
    rw [DayFromYear_succ, DaysInYear_eq, show monthStart 0 (leapFlag (y + 1)) = 0 from rfl]
    have := monthStart_last (leapFlag y)
    omega
  · simp only
    rw [monthStart_step m _ hm0 (by omega)]
    omega

theorem monthAfter_bounds (y m : Int) (hm0 : 0 ≤ m) (hm1 : m ≤ 11) :
    0 ≤ (monthAfter y m).2 ∧ (monthAfter y m).2 ≤ 11 := by
  unfold monthAfter
  split_ifs
  · simp
  · simp only; omega

theorem monthBefore_bounds (y m : Int) (hm0 : 0 ≤ m) (hm1 : m ≤ 11) :
    0 ≤ (monthBefore y m).2 ∧ (monthBefore y m).2 ≤ 11 := by
  unfold monthBefore
  split_ifs
  · simp
  · simp only; omega

theorem monthBefore_monthAfter (y m : Int) (hm0 : 0 ≤ m) (hm1 : m ≤ 11) :
    monthBefore (monthAfter y m).1 (monthAfter y m).2 = (y, m) := by
  unfold monthAfter monthBefore
  split_ifs with h1 h2 h3 <;> simp at * <;> omega

theorem monthAfter_monthBefore (y m : Int) (hm0 : 0 ≤ m) (hm1 : m ≤ 11) :
    monthAfter (monthBefore y m).1 (monthBefore y m).2 = (y, m) := by
  unfold monthAfter monthBefore
  split_ifs with h1 h2 h3 <;> simp at * <;> omega

theorem Day_MakeDate (day tod : Int) (h0 : 0 ≤ tod) (h1 : tod < msPerDay) :
    Day (MakeDate day tod) = day := by
  unfold Day MakeDate msPerDay at *
  omega

theorem LocalTime_UTC (tz t : Int) : LocalTime tz (UTC tz t) = t := by
  unfold LocalTime UTC; omega

theorem Day_localInstant (tz y m d tod : Int) (h0 : 0 ≤ tod) (h1 : tod < msPerDay) :
    Day (LocalTime tz (localInstant tz y m d tod)) = dayNumber y m d := by
  unfold localInstant
  rw [LocalTime_UTC, Day_MakeDate _ _ h0 h1]

/-- The getters read back the calendar date an instant was built from. -/
theorem getters_localInstant (tz y m d tod : Int) (hm0 : 0 ≤ m) (hm1 : m ≤ 11) (hd0 : 1 ≤ d)
    (hd1 : d ≤ daysInMonth y m) (h0 : 0 ≤ tod) (h1 : tod < msPerDay) :
    getFullYear tz (localInstant tz y m d tod) = y ∧
      getMonth tz (localInstant tz y m d tod) = m ∧
      getDate tz (localInstant tz y m d tod) = d :=
  fields_of_dayNumber y m d _ hm0 hm1 hd0 hd1 (Day_localInstant tz y m d tod h0 h1)

/-- The clock reading of an instant built at local midnight. -/
theorem clock_midnight (tz y m d : Int) :
    getHours tz (localInstant tz y m d 0) = 0 ∧ getMinutes tz (localInstant tz y m d 0) = 0 ∧
      getSeconds tz (localInstant tz y m d 0) = 0 ∧
      getMilliseconds tz (localInstant tz y m d 0) = 0 := by
  unfold getHours getMinutes getSeconds getMilliseconds localInstant
  simp only [LocalTime_UTC]
  unfold HourFromTime MinFromTime SecFromTime msFromTime MakeDate msPerDay msPerHour msPerMinute
    msPerSecond
  generalize dayNumber y m d = n
  omega

/-- The clock reading of an instant built at the last millisecond of a day. -/
theorem clock_endOfDay (tz y m d : Int) :
    getHours tz (localInstant tz y m d 86399999) = 23 ∧
      getMinutes tz (localInstant tz y m d 86399999) = 59 ∧
      getSeconds tz (localInstant tz y m d 86399999) = 59 ∧
      getMilliseconds tz (localInstant tz y m d 86399999) = 999 := by
  unfold getHours getMinutes getSeconds getMilliseconds localInstant
  simp only [LocalTime_UTC]
  unfold HourFromTime MinFromTime SecFromTime msFromTime MakeDate msPerDay msPerHour msPerMinute
    msPerSecond
  generalize dayNumber y m d = n
  omega

/-- Every day of a usable year is a representable time value. -/
theorem localInstant_representable (tz y m d tod : Int) (hz : ZoneOK tz) (hy : Usable y)
    (hm0 : 0 ≤ m) (hm1 : m ≤ 11) (hd0 : 1 ≤ d) (hd1 : d ≤ daysInMonth y m) (h0 : 0 ≤ tod)
    (h1 : tod < msPerDay) :
    TimeClip (localInstant tz y m d tod) = some (localInstant tz y m d tod) := by
  have hl := leapFlag_cases y
  rw [daysInMonth_eq_monthLength] at hd1
  have a0 := monthStart_nonneg m (leapFlag y) hl hm0 hm1
  have a1 := monthStart_end_le m (leapFlag y) hl hm0 hm1
  obtain ⟨_, hy0, hy1⟩ := hy
  have b0 := DayFromYear_mono hy0
  have b1 := DayFromYear_mono hy1
  rw [show DayFromYear (-271820) = -99999744 from by decide] at b0
  rw [show DayFromYear 275759 = 99999379 from by decide] at b1
  unfold TimeClip
  rw [if_pos]
  unfold localInstant UTC MakeDate dayNumber maxTime
  unfold ZoneOK at hz
  unfold msPerDay at *
  omega

/-- The getters of any time value form a valid calendar date. -/
theorem getters_bounds (tz r : Int) :
    0 ≤ getMonth tz r ∧ getMonth tz r ≤ 11 ∧ 1 ≤ getDate tz r ∧
      getDate tz r ≤ daysInMonth (getFullYear tz r) (getMonth tz r) :=
  fields_bounds (LocalTime tz r)

theorem MakeFullYear_usable (y : Int) (hy : Usable y) : MakeFullYear y = y := by
  unfold MakeFullYear
  rw [if_neg hy.1]

/-- The constructor on a valid calendar date of a usable year. -/
theorem newDate_calendar (tz y m d h mi s ms tod : Int) (hz : ZoneOK tz) (hy : Usable y)
    (hm0 : 0 ≤ m) (hm1 : m ≤ 11) (hd0 : 1 ≤ d) (hd1 : d ≤ daysInMonth y m)
    (ht : MakeTime h mi s ms = tod) (h0 : 0 ≤ tod) (h1 : tod < msPerDay) :
    newDate tz y m (some d) h mi s ms = some (localInstant tz y m d tod) := by
  unfold newDate
  simp only [Option.some_bind]
  rw [MakeFullYear_usable y hy, MakeDay_eq_dayNumber y m d hm0 hm1, ht]
  exact localInstant_representable tz y m d tod hz hy hm0 hm1 hd0 hd1 h0 h1

/-- The constructor on day 0 of the following month. -/
theorem newDate_dayZero (tz y m h mi s ms tod : Int) (hz : ZoneOK tz) (hy : Usable y)
    (hm0 : 0 ≤ m) (hm1 : m ≤ 11) (ht : MakeTime h mi s ms = tod) (h0 : 0 ≤ tod)
    (h1 : tod < msPerDay) :
    newDate tz y (m + 1) (some 0) h mi s ms =
      some (localInstant tz y m (daysInMonth y m) tod) := by
  unfold newDate
  simp only [Option.some_bind]
  rw [MakeFullYear_usable y hy, MakeDay_day_zero y m hm0 hm1, ht]
  have hb := daysInMonth_bounds y m
  exact localInstant_representable tz y m _ tod hz hy hm0 hm1 (by omega) (le_refl _) h0 h1

/-- The idiom `new Date(y, m + 1, 0).getDate()` yields the length of month `m`. -/
theorem getDate_dayZero (tz y m : Int) (hz : ZoneOK tz) (hy : Usable y) (hm0 : 0 ≤ m)
    (hm1 : m ≤ 11) :
    (newDate tz y (m + 1) (some 0) 0 0 0 0).map (getDate tz) = some (daysInMonth y m) := by
  rw [newDate_dayZero tz y m 0 0 0 0 0 hz hy hm0 hm1 (by decide) (by decide) (by decide)]
  have hb := daysInMonth_bounds y m
  simp only [Option.map_some']
  rw [(getters_localInstant tz y m (daysInMonth y m) 0 hm0 hm1 (by omega) (le_refl _)
    (by decide) (by decide)).2.2]

theorem MakeTime_endOfDay : MakeTime 23 59 59 999 = 86399999 := by decide

/-- Calendar-month case of `getMonthBounds`. -/
theorem getMonthBounds_calendar (tz r : Int) (hz : ZoneOK tz)
    (hy : Usable (getFullYear tz r)) :
    getMonthBounds tz 1 r =
      some ⟨localInstant tz (getFullYear tz r) (getMonth tz r) 1 0,
        localInstant tz (getFullYear tz r) (getMonth tz r)
          (daysInMonth (getFullYear tz r) (getMonth tz r)) 86399999⟩ := by
  obtain ⟨hm0, hm1, _, _⟩ := getters_bounds tz r
  have hb := daysInMonth_bounds (getFullYear tz r) (getMonth tz r)
  unfold getMonthBounds viaISOString
  simp only [if_true]
  rw [newDate_calendar tz _ _ 1 0 0 0 0 0 hz hy hm0 hm1 (le_refl _) (by omega) (by decide)
      (by decide) (by decide),
    newDate_dayZero tz _ _ 23 59 59 999 86399999 hz hy hm0 hm1 MakeTime_endOfDay (by decide)
      (by decide)]
  rfl

/-- Custom cycle, reference before this month's start day: the cycle began in
the previous month. -/
theorem getMonthBounds_before (tz sd r : Int) (hz : ZoneOK tz) (hs0 : 2 ≤ sd) (hs1 : sd ≤ 31)
    (hy : Usable (getFullYear tz r))
    (hpy : Usable (monthBefore (getFullYear tz r) (getMonth tz r)).1)
    (hD : getDate tz r < min sd (daysInMonth (getFullYear tz r) (getMonth tz r))) :
    getMonthBounds tz sd r =
      some ⟨localInstant tz (monthBefore (getFullYear tz r) (getMonth tz r)).1
          (monthBefore (getFullYear tz r) (getMonth tz r)).2
          (min sd (daysInMonth (monthBefore (getFullYear tz r) (getMonth tz r)).1
            (monthBefore (getFullYear tz r) (getMonth tz r)).2)) 0,
        localInstant tz (getFullYear tz r) (getMonth tz r)
          (min sd (daysInMonth (getFullYear tz r) (getMonth tz r)) - 1) 86399999⟩ := by
  obtain ⟨hm0, hm1, hd0, hd1⟩ := getters_bounds tz r
  have hb := daysInMonth_bounds (getFullYear tz r) (getMonth tz r)
  obtain ⟨hp0, hp1⟩ := monthBefore_bounds (getFullYear tz r) (getMonth tz r) hm0 hm1
  have hpb := daysInMonth_bounds (monthBefore (getFullYear tz r) (getMonth tz r)).1
    (monthBefore (getFullYear tz r) (getMonth tz r)).2
  have e1 : (if getMonth tz r = 0 then getFullYear tz r - 1 else getFullYear tz r)
      = (monthBefore (getFullYear tz r) (getMonth tz r)).1 := by
    unfold monthBefore; split_ifs <;> rfl
  have e2 : (if getMonth tz r = 0 then 11 else getMonth tz r - 1)
      = (monthBefore (getFullYear tz r) (getMonth tz r)).2 := by
    unfold monthBefore; split_ifs <;> rfl
  unfold getMonthBounds viaISOString
  rw [if_neg (by omega : ¬ sd = 1)]
  simp only [e1, e2]
  rw [getDate_dayZero tz _ _ hz hy hm0 hm1, getDate_dayZero tz _ _ hz hpy hp0 hp1]
  simp only [mathMin, Option.map_some', jsLt, decide_eq_true_eq]
  rw [if_pos hD]
  rw [newDate_calendar tz _ _ _ 0 0 0 0 0 hz hpy hp0 hp1 (by omega) (min_le_right _ _) (by decide)
      (by decide) (by decide),
    newDate_calendar tz _ _ _ 23 59 59 999 86399999 hz hy hm0 hm1 (by omega)
      (by have := min_le_right sd (daysInMonth (getFullYear tz r) (getMonth tz r)); omega)
      MakeTime_endOfDay (by decide) (by decide)]
  rfl

/-- Custom cycle, reference on or after this month's start day: the cycle
begins in the current month. -/
theorem getMonthBounds_after (tz sd r : Int) (hz : ZoneOK tz) (hs0 : 2 ≤ sd) (hs1 : sd ≤ 31)
    (hy : Usable (getFullYear tz r))
    (hny : Usable (monthAfter (getFullYear tz r) (getMonth tz r)).1)
    (hD : min sd (daysInMonth (getFullYear tz r) (getMonth tz r)) ≤ getDate tz r) :
    getMonthBounds tz sd r =
      some ⟨localInstant tz (getFullYear tz r) (getMonth tz r)
          (min sd (daysInMonth (getFullYear tz r) (getMonth tz r))) 0,
        localInstant tz (monthAfter (getFullYear tz r) (getMonth tz r)).1
          (monthAfter (getFullYear tz r) (getMonth tz r)).2
          (min sd (daysInMonth (monthAfter (getFullYear tz r) (getMonth tz r)).1
            (monthAfter (getFullYear tz r) (getMonth tz r)).2) - 1) 86399999⟩ := by
  obtain ⟨hm0, hm1, hd0, hd1⟩ := getters_bounds tz r
  have hb := daysInMonth_bounds (getFullYear tz r) (getMonth tz r)
  obtain ⟨hn0, hn1⟩ := monthAfter_bounds (getFullYear tz r) (getMonth tz r) hm0 hm1
  have hnb := daysInMonth_bounds (monthAfter (getFullYear tz r) (getMonth tz r)).1
    (monthAfter (getFullYear tz r) (getMonth tz r)).2
  have e1 : (if getMonth tz r = 11 then getFullYear tz r + 1 else getFullYear tz r)
      = (monthAfter (getFullYear tz r) (getMonth tz r)).1 := by
    unfold monthAfter; split_ifs <;> rfl
  have e2 : (if getMonth tz r = 11 then 0 else getMonth tz r + 1)
      = (monthAfter (getFullYear tz r) (getMonth tz r)).2 := by
    unfold monthAfter; split_ifs <;> rfl
  unfold getMonthBounds viaISOString
  rw [if_neg (by omega : ¬ sd = 1)]
  simp only [e1, e2]
  rw [getDate_dayZero tz _ _ hz hy hm0 hm1, getDate_dayZero tz _ _ hz hny hn0 hn1]
  simp only [mathMin, Option.map_some', jsLt, decide_eq_true_eq]
  rw [if_neg (not_lt.mpr hD)]
  rw [newDate_calendar tz _ _ _ 0 0 0 0 0 hz hy hm0 hm1 (by omega) (min_le_right _ _) (by decide)
      (by decide) (by decide),
    newDate_calendar tz _ _ _ 23 59 59 999 86399999 hz hny hn0 hn1 (by omega)
      (by have := min_le_right sd (daysInMonth (monthAfter (getFullYear tz r) (getMonth tz r)).1
            (monthAfter (getFullYear tz r) (getMonth tz r)).2); omega)
      MakeTime_endOfDay (by decide) (by decide)]
  rfl

/-! ## The three branches of `getMonthBounds` -/

/-- Outside the usable years the constructor can yield an Invalid Date, and
`toISOString` then throws: the calendar month of the largest time value ends
past it. -/
theorem getMonthBounds_throws_at_limit : getMonthBounds 0 1 maxTime = none := by decide

theorem readsAs_midnight (tz y m d : Int) (hm0 : 0 ≤ m) (hm1 : m ≤ 11) (hd0 : 1 ≤ d)
    (hd1 : d ≤ daysInMonth y m) : ReadsAs tz (localInstant tz y m d 0) y m d 0 0 0 0 := by
  obtain ⟨a, b, c⟩ := getters_localInstant tz y m d 0 hm0 hm1 hd0 hd1 (by decide) (by decide)
  obtain ⟨e, f, g, h⟩ := clock_midnight tz y m d
  exact ⟨a, b, c, e, f, g, h⟩

theorem readsAs_endOfDay (tz y m d : Int) (hm0 : 0 ≤ m) (hm1 : m ≤ 11) (hd0 : 1 ≤ d)
    (hd1 : d ≤ daysInMonth y m) :
    ReadsAs tz (localInstant tz y m d 86399999) y m d 23 59 59 999 := by
  obtain ⟨a, b, c⟩ :=
    getters_localInstant tz y m d 86399999 hm0 hm1 hd0 hd1 (by decide) (by decide)
  obtain ⟨e, f, g, h⟩ := clock_endOfDay tz y m d
  exact ⟨a, b, c, e, f, g, h⟩

theorem dayNumber_eq (y m d : Int) : dayNumber y m d = dayNumber y m 0 + d := by
  unfold dayNumber; omega

theorem dayNumber_monthAfter_zero (y m : Int) (hm0 : 0 ≤ m) (hm1 : m ≤ 11) :
    dayNumber (monthAfter y m).1 (monthAfter y m).2 0 = dayNumber y m 0 + daysInMonth y m := by
  rw [dayNumber_monthAfter y m 0 hm0 hm1, dayNumber_eq]
  omega

theorem midnight_le_iff (tz y m d r : Int) :
    localInstant tz y m d 0 ≤ r ↔ dayNumber y m d ≤ Day (LocalTime tz r) := by
  unfold localInstant UTC MakeDate Day LocalTime msPerDay
  generalize dayNumber y m d = n
  constructor <;> intro h <;> omega

theorem le_endOfDay_iff (tz y m d r : Int) :
    r ≤ localInstant tz y m d 86399999 ↔ Day (LocalTime tz r) ≤ dayNumber y m d := by
  unfold localInstant UTC MakeDate Day LocalTime msPerDay
  generalize dayNumber y m d = n
  constructor <;> intro h <;> omega

/-- First and last local day number of the cycle that starts in `(y, m)`. -/
theorem cycleOf_days (tz sd y m r : Int) :
    ((cycleOf tz sd y m).start ≤ r ↔
      dayNumber y m (min sd (daysInMonth y m)) ≤ Day (LocalTime tz r)) ∧
    (r ≤ (cycleOf tz sd y m).end_ ↔
      Day (LocalTime tz r) ≤ dayNumber (monthAfter y m).1 (monthAfter y m).2
        (min sd (daysInMonth (monthAfter y m).1 (monthAfter y m).2) - 1)) :=
  ⟨midnight_le_iff tz _ _ _ r, le_endOfDay_iff tz _ _ _ r⟩

/-- Every instant whose local day lies in the cycle that starts in `(y, m)`
gets exactly that cycle from `getMonthBounds`. -/
theorem getMonthBounds_of_mem_cycle (tz sd y m r : Int) (hz : ZoneOK tz) (hs0 : 1 ≤ sd)
    (hs1 : sd ≤ 31) (hm0 : 0 ≤ m) (hm1 : m ≤ 11) (hy : Usable y)
    (hny : Usable (monthAfter y m).1)
    (h0 : dayNumber y m (min sd (daysInMonth y m)) ≤ Day (LocalTime tz r))
    (h1 : Day (LocalTime tz r) ≤ dayNumber (monthAfter y m).1 (monthAfter y m).2
      (min sd (daysInMonth (monthAfter y m).1 (monthAfter y m).2) - 1)) :
    getMonthBounds tz sd r = some (cycleOf tz sd y m) := by
  have hb := daysInMonth_bounds y m
  have hnb := daysInMonth_bounds (monthAfter y m).1 (monthAfter y m).2
  obtain ⟨hn0, hn1⟩ := monthAfter_bounds y m hm0 hm1
  have hadj := dayNumber_monthAfter_zero y m hm0 hm1
  have e0 := dayNumber_eq y m
  have en := dayNumber_eq (monthAfter y m).1 (monthAfter y m).2
  have a1 := e0 (min sd (daysInMonth y m))
  have a3 := en (min sd (daysInMonth (monthAfter y m).1 (monthAfter y m).2) - 1)
  by_cases hc : Day (LocalTime tz r) ≤ dayNumber y m (daysInMonth y m)
  · -- the reference lies in month `(y, m)`
    have a4 := e0 (daysInMonth y m)
    have a5 := e0 (Day (LocalTime tz r) - dayNumber y m 0)
    obtain ⟨fY, fM, fD⟩ := fields_of_dayNumber y m (Day (LocalTime tz r) - dayNumber y m 0)
      (LocalTime tz r) hm0 hm1 (by omega) (by omega) (by omega)
    have gY : getFullYear tz r = y := fY
    have gM : getMonth tz r = m := fM
    have gD : getDate tz r = Day (LocalTime tz r) - dayNumber y m 0 := fD
    rcases eq_or_lt_of_le hs0 with e | e
    · subst e
      have hcal := getMonthBounds_calendar tz r hz (by rw [gY]; exact hy)
      rw [gY, gM] at hcal
      rw [hcal]
      unfold cycleOf localInstant
      have m1 : min 1 (daysInMonth y m) = 1 := by omega
      have m2 : min 1 (daysInMonth (monthAfter y m).1 (monthAfter y m).2) - 1 = 0 := by omega
      rw [m1, m2, hadj, e0 (daysInMonth y m)]
    · have haft := getMonthBounds_after tz sd r hz (by omega) hs1 (by rw [gY]; exact hy)
        (by rw [gY, gM]; exact hny) (by rw [gY, gM, gD]; omega)
      rw [gY, gM] at haft
      rw [haft]
      rfl
  · -- the reference lies in the following month
    have a4 := e0 (daysInMonth y m)
    have a5 := en (Day (LocalTime tz r) - dayNumber (monthAfter y m).1 (monthAfter y m).2 0)
    obtain ⟨fY, fM, fD⟩ := fields_of_dayNumber (monthAfter y m).1 (monthAfter y m).2
      (Day (LocalTime tz r) - dayNumber (monthAfter y m).1 (monthAfter y m).2 0)
      (LocalTime tz r) hn0 hn1 (by omega) (by omega) (by omega)
    have gY : getFullYear tz r = (monthAfter y m).1 := fY
    have gM : getMonth tz r = (monthAfter y m).2 := fM
    have gD : getDate tz r =
      Day (LocalTime tz r) - dayNumber (monthAfter y m).1 (monthAfter y m).2 0 := fD
    have hback := monthBefore_monthAfter y m hm0 hm1
    have hbef := getMonthBounds_before tz sd r hz (by omega) hs1 (by rw [gY]; exact hny)
      (by rw [gY, gM, hback]; exact hy) (by rw [gY, gM, gD]; omega)
    rw [gY, gM, hback] at hbef
    rw [hbef]
    rfl

theorem monthAfter_year (y m : Int) : (monthAfter y m).1 = y ∨ (monthAfter y m).1 = y + 1 := by
  unfold monthAfter; split_ifs <;> simp

theorem monthBefore_year (y m : Int) :
    (monthBefore y m).1 = y ∨ (monthBefore y m).1 = y - 1 := by
  unfold monthBefore; split_ifs <;> simp

/-- Two months on, the year has advanced by at most one. -/
theorem monthAfter_twice_year (y m : Int) :
    (monthAfter (monthAfter y m).1 (monthAfter y m).2).1 = y ∨
      (monthAfter (monthAfter y m).1 (monthAfter y m).2).1 = y + 1 := by
  unfold monthAfter
  split_ifs <;> simp_all

theorem usable_of_near {a y : Int} (h0 : Usable (y - 1)) (h1 : Usable y) (h2 : Usable (y + 1))
    (h : a = y - 1 ∨ a = y ∨ a = y + 1) : Usable a := by
  rcases h with e | e | e <;> rw [e] <;> assumption

/-- Every supported reference lies in the cycle of its own month or in the
cycle of the month before, and `getMonthBounds` returns that cycle. -/
theorem cycle_of_reference (tz sd r : Int) (hs0 : 1 ≤ sd) (hs1 : sd ≤ 31)
    (hsup : Supported tz r) :
    ∃ y m, 0 ≤ m ∧ m ≤ 11 ∧ Usable y ∧ Usable (monthAfter y m).1 ∧
      Usable (monthAfter (monthAfter y m).1 (monthAfter y m).2).1 ∧
      getMonthBounds tz sd r = some (cycleOf tz sd y m) ∧
      (cycleOf tz sd y m).start ≤ r ∧ r ≤ (cycleOf tz sd y m).end_ := by
  obtain ⟨hz, u0, u1, u2⟩ := hsup
  obtain ⟨hm0, hm1, hd0, hd1⟩ := getters_bounds tz r
  have hday : Day (LocalTime tz r) =
      dayNumber (getFullYear tz r) (getMonth tz r) (getDate tz r) := Day_eq_dayNumber _
  have hb := daysInMonth_bounds (getFullYear tz r) (getMonth tz r)
  have e0 := dayNumber_eq (getFullYear tz r) (getMonth tz r)
  by_cases hc : min sd (daysInMonth (getFullYear tz r) (getMonth tz r)) ≤ getDate tz r
  · -- the cycle of the reference's own month
    obtain ⟨hn0, hn1⟩ := monthAfter_bounds (getFullYear tz r) (getMonth tz r) hm0 hm1
    have hnb := daysInMonth_bounds (monthAfter (getFullYear tz r) (getMonth tz r)).1
      (monthAfter (getFullYear tz r) (getMonth tz r)).2
    have hadj := dayNumber_monthAfter_zero (getFullYear tz r) (getMonth tz r) hm0 hm1
    have en := dayNumber_eq (monthAfter (getFullYear tz r) (getMonth tz r)).1
      (monthAfter (getFullYear tz r) (getMonth tz r)).2
    have un : Usable (monthAfter (getFullYear tz r) (getMonth tz r)).1 :=
      usable_of_near u0 u1 u2 (by
        rcases monthAfter_year (getFullYear tz r) (getMonth tz r) with e | e <;> omega)
    have unn : Usable (monthAfter (monthAfter (getFullYear tz r) (getMonth tz r)).1
        (monthAfter (getFullYear tz r) (getMonth tz r)).2).1 :=
      usable_of_near u0 u1 u2 (by
        rcases monthAfter_twice_year (getFullYear tz r) (getMonth tz r) with e | e <;>
          omega)
    have a1 := e0 (min sd (daysInMonth (getFullYear tz r) (getMonth tz r)))
    have a2 := e0 (getDate tz r)
    have a3 := en (min sd (daysInMonth (monthAfter (getFullYear tz r) (getMonth tz r)).1
      (monthAfter (getFullYear tz r) (getMonth tz r)).2) - 1)
    have h0 : dayNumber (getFullYear tz r) (getMonth tz r)
        (min sd (daysInMonth (getFullYear tz r) (getMonth tz r))) ≤ Day (LocalTime tz r) := by
      omega
    have h1 : Day (LocalTime tz r) ≤ dayNumber (monthAfter (getFullYear tz r) (getMonth tz r)).1
        (monthAfter (getFullYear tz r) (getMonth tz r)).2
        (min sd (daysInMonth (monthAfter (getFullYear tz r) (getMonth tz r)).1
          (monthAfter (getFullYear tz r) (getMonth tz r)).2) - 1) := by
      omega
    exact ⟨_, _, hm0, hm1, u1, un, unn,
      getMonthBounds_of_mem_cycle tz sd _ _ r hz hs0 hs1 hm0 hm1 u1 un h0 h1,
      (cycleOf_days tz sd _ _ r).1.mpr h0, (cycleOf_days tz sd _ _ r).2.mpr h1⟩
  · -- the cycle of the month before
    obtain ⟨hp0, hp1⟩ := monthBefore_bounds (getFullYear tz r) (getMonth tz r) hm0 hm1
    have hpb := daysInMonth_bounds (monthBefore (getFullYear tz r) (getMonth tz r)).1
      (monthBefore (getFullYear tz r) (getMonth tz r)).2
    have hfwd := monthAfter_monthBefore (getFullYear tz r) (getMonth tz r) hm0 hm1
    have hadj := dayNumber_monthAfter_zero (monthBefore (getFullYear tz r) (getMonth tz r)).1
      (monthBefore (getFullYear tz r) (getMonth tz r)).2 hp0 hp1
    rw [hfwd] at hadj
    simp only at hadj
    have ep := dayNumber_eq (monthBefore (getFullYear tz r) (getMonth tz r)).1
      (monthBefore (getFullYear tz r) (getMonth tz r)).2
    have up : Usable (monthBefore (getFullYear tz r) (getMonth tz r)).1 :=
      usable_of_near u0 u1 u2 (by
        rcases monthBefore_year (getFullYear tz r) (getMonth tz r) with e | e <;> omega)
    have un : Usable (monthAfter (getFullYear tz r) (getMonth tz r)).1 :=
      usable_of_near u0 u1 u2 (by
        rcases monthAfter_year (getFullYear tz r) (getMonth tz r) with e | e <;> omega)
    have a1 := ep (min sd (daysInMonth (monthBefore (getFullYear tz r) (getMonth tz r)).1
      (monthBefore (getFullYear tz r) (getMonth tz r)).2))
    have a2 := e0 (getDate tz r)
    have a3 := e0 (min sd (daysInMonth (getFullYear tz r) (getMonth tz r)) - 1)
    have h0 : dayNumber (monthBefore (getFullYear tz r) (getMonth tz r)).1
        (monthBefore (getFullYear tz r) (getMonth tz r)).2
        (min sd (daysInMonth (monthBefore (getFullYear tz r) (getMonth tz r)).1
          (monthBefore (getFullYear tz r) (getMonth tz r)).2)) ≤ Day (LocalTime tz r) := by
      omega
    have h1 : Day (LocalTime tz r) ≤ dayNumber (getFullYear tz r) (getMonth tz r)
        (min sd (daysInMonth (getFullYear tz r) (getMonth tz r)) - 1) := by
      omega
    have key := getMonthBounds_of_mem_cycle tz sd
      (monthBefore (getFullYear tz r) (getMonth tz r)).1
      (monthBefore (getFullYear tz r) (getMonth tz r)).2 r hz hs0 hs1 hp0 hp1 up
      (by rw [hfwd]; exact u1) h0 (by rw [hfwd]; exact h1)
    refine ⟨_, _, hp0, hp1, up, by rw [hfwd]; exact u1, by rw [hfwd]; exact un, key,
      (cycleOf_days tz sd _ _ r).1.mpr h0, (cycleOf_days tz sd _ _ r).2.mpr ?_⟩
    rw [hfwd]; exact h1

/-- The cycle after the one that starts in `(y, m)` starts one millisecond
after its end, and `getMonthBounds` finds it there. -/
theorem next_cycle_adjacent (tz sd y m : Int) (hz : ZoneOK tz) (hs0 : 1 ≤ sd) (hs1 : sd ≤ 31)
    (hm0 : 0 ≤ m) (hm1 : m ≤ 11) (hny : Usable (monthAfter y m).1)
    (hnny : Usable (monthAfter (monthAfter y m).1 (monthAfter y m).2).1) :
    getMonthBounds tz sd ((cycleOf tz sd y m).end_ + 1) =
        some (cycleOf tz sd (monthAfter y m).1 (monthAfter y m).2) ∧
      (cycleOf tz sd (monthAfter y m).1 (monthAfter y m).2).start =
        (cycleOf tz sd y m).end_ + 1 := by
  obtain ⟨hn0, hn1⟩ := monthAfter_bounds y m hm0 hm1
  have hnb := daysInMonth_bounds (monthAfter y m).1 (monthAfter y m).2
  have hnnb := daysInMonth_bounds (monthAfter (monthAfter y m).1 (monthAfter y m).2).1
    (monthAfter (monthAfter y m).1 (monthAfter y m).2).2
  have hadj := dayNumber_monthAfter_zero (monthAfter y m).1 (monthAfter y m).2 hn0 hn1
  have en := dayNumber_eq (monthAfter y m).1 (monthAfter y m).2
  have enn := dayNumber_eq (monthAfter (monthAfter y m).1 (monthAfter y m).2).1
    (monthAfter (monthAfter y m).1 (monthAfter y m).2).2
  have a1 := en (min sd (daysInMonth (monthAfter y m).1 (monthAfter y m).2) - 1)
  have a2 := en (min sd (daysInMonth (monthAfter y m).1 (monthAfter y m).2))
  have a3 := enn (min sd (daysInMonth (monthAfter (monthAfter y m).1 (monthAfter y m).2).1
    (monthAfter (monthAfter y m).1 (monthAfter y m).2).2) - 1)
  have hstart : (cycleOf tz sd (monthAfter y m).1 (monthAfter y m).2).start =
      (cycleOf tz sd y m).end_ + 1 := by
    unfold cycleOf localInstant UTC MakeDate msPerDay
    simp only
    omega
  have hd : Day (LocalTime tz ((cycleOf tz sd y m).end_ + 1)) =
      dayNumber (monthAfter y m).1 (monthAfter y m).2
        (min sd (daysInMonth (monthAfter y m).1 (monthAfter y m).2)) := by
    rw [← hstart]
    exact Day_localInstant tz _ _ _ 0 (by decide) (by decide)
  refine ⟨?_, hstart⟩
  apply getMonthBounds_of_mem_cycle tz sd _ _ _ hz hs0 hs1 hn0 hn1 hny hnny
  · rw [hd]
  · rw [hd]; omega

theorem nextYear_eq (tz r : Int) :
    (if getMonth tz r = 11 then getFullYear tz r + 1 else getFullYear tz r)
      = (monthAfter (getFullYear tz r) (getMonth tz r)).1 := by
  unfold monthAfter; split_ifs <;> rfl

theorem nextMonth_eq (tz r : Int) :
    (if getMonth tz r = 11 then 0 else getMonth tz r + 1)
      = (monthAfter (getFullYear tz r) (getMonth tz r)).2 := by
  unfold monthAfter; split_ifs <;> rfl

/-- In the custom-cycle case the returned end is the date the constructor
builds from the end arguments. -/
theorem endLocal_arguments (tz sd r : Int) (hs : sd ≠ 1) (w : DateRange)
    (hw : getMonthBounds tz sd r = some w) :
    newDate tz (endMonthArgument tz sd r).1 (endMonthArgument tz sd r).2
      (endDayArgument tz sd r) 23 59 59 999 = some w.end_ := by
  unfold getMonthBounds viaISOString at hw
  rw [if_neg hs] at hw
  unfold endMonthArgument endDayArgument
  simp only [nextYear_eq, nextMonth_eq] at hw ⊢
  by_cases hc : jsLt (getDate tz r) (mathMin sd (Option.map (getDate tz)
      (newDate tz (getFullYear tz r) (getMonth tz r + 1) (some 0) 0 0 0 0))) = true
  · simp only [if_pos hc] at hw ⊢
    simp only [Option.bind_eq_bind, Option.bind_eq_some, Option.pure_def, Option.some.injEq] at hw
    obtain ⟨s, -, e, he, rfl⟩ := hw
    exact he
  · simp only [if_neg hc] at hw ⊢
    simp only [Option.bind_eq_bind, Option.bind_eq_some, Option.pure_def, Option.some.injEq] at hw
    obtain ⟨s, -, e, he, rfl⟩ := hw
    exact he

/-- Whatever the year, `new Date(y, m + 1, 0).getDate()` is the length of a
month whenever it is a number. -/
theorem getDate_dayZero_any (tz y m v : Int) (hm0 : 0 ≤ m) (hm1 : m ≤ 11)
    (h : (newDate tz y (m + 1) (some 0) 0 0 0 0).map (getDate tz) = some v) :
    v = daysInMonth (MakeFullYear y) m := by
  unfold newDate TimeClip at h
  simp only [Option.some_bind] at h
  split_ifs at h
  · simp only [Option.map_some', Option.some.injEq] at h
    rw [← h, MakeDay_day_zero _ m hm0 hm1]
    have hb := daysInMonth_bounds (MakeFullYear y) m
    exact (getters_localInstant tz (MakeFullYear y) m _ 0 hm0 hm1 (by omega) (le_refl _)
      (by decide) (by decide)).2.2
  · simp at h

/-- Without any assumption on the reference, the end day argument of a custom
cycle is a number from 1 to 30 whenever it is a number. -/
theorem endDayArgument_range (tz sd r k : Int) (hs0 : 2 ≤ sd) (hs1 : sd ≤ 31)
    (hk : endDayArgument tz sd r = some k) : 1 ≤ k ∧ k ≤ 30 := by
  obtain ⟨hm0, hm1, -, -⟩ := getters_bounds tz r
  obtain ⟨hn0, hn1⟩ := monthAfter_bounds (getFullYear tz r) (getMonth tz r) hm0 hm1
  unfold endDayArgument at hk
  simp only [nextYear_eq, nextMonth_eq] at hk
  by_cases hc : jsLt (getDate tz r) (mathMin sd (Option.map (getDate tz)
      (newDate tz (getFullYear tz r) (getMonth tz r + 1) (some 0) 0 0 0 0))) = true
  · rw [if_pos hc] at hk
    simp only [mathMin, Option.map_eq_some'] at hk
    obtain ⟨a, ⟨v, hv, rfl⟩, rfl⟩ := hk
    have e := getDate_dayZero_any tz _ _ v hm0 hm1 (Option.map_eq_some'.mpr hv)
    have hb := daysInMonth_bounds (MakeFullYear (getFullYear tz r)) (getMonth tz r)
    omega
  · rw [if_neg hc] at hk
    simp only [mathMin, Option.map_eq_some'] at hk
    obtain ⟨a, ⟨v, hv, rfl⟩, rfl⟩ := hk
    have e := getDate_dayZero_any tz _ _ v hn0 hn1 (Option.map_eq_some'.mpr hv)
    have hb := daysInMonth_bounds
      (MakeFullYear (monthAfter (getFullYear tz r) (getMonth tz r)).1)
      (monthAfter (getFullYear tz r) (getMonth tz r)).2
    omega

/-- The constructor resolves day 0 of a month to the last day of the month
before. -/
theorem newDate_day_zero_rollback (tz y m : Int) (hz : ZoneOK tz) (hy : Usable y)
    (hpy : Usable (monthBefore y m).1) (hm0 : 0 ≤ m) (hm1 : m ≤ 11) :
    ∃ e0, newDate tz y m (some 0) 23 59 59 999 = some e0 ∧
      ReadsAs tz e0 (monthBefore y m).1 (monthBefore y m).2
        (daysInMonth (monthBefore y m).1 (monthBefore y m).2) 23 59 59 999 := by
  obtain ⟨hp0, hp1⟩ := monthBefore_bounds y m hm0 hm1
  have hpb := daysInMonth_bounds (monthBefore y m).1 (monthBefore y m).2
  have hadj := dayNumber_monthAfter_zero (monthBefore y m).1 (monthBefore y m).2 hp0 hp1
  rw [monthAfter_monthBefore y m hm0 hm1] at hadj
  simp only at hadj
  have hday : dayNumber y m 0 = dayNumber (monthBefore y m).1 (monthBefore y m).2
      (daysInMonth (monthBefore y m).1 (monthBefore y m).2) := by
    rw [hadj, ← dayNumber_eq]
  refine ⟨localInstant tz (monthBefore y m).1 (monthBefore y m).2
    (daysInMonth (monthBefore y m).1 (monthBefore y m).2) 86399999, ?_,
    readsAs_endOfDay tz _ _ _ hp0 hp1 (by omega) (le_refl _)⟩
  unfold newDate
  simp only [Option.some_bind]
  rw [MakeFullYear_usable y hy, MakeDay_eq_dayNumber y m 0 hm0 hm1, MakeTime_endOfDay, hday]
  exact localInstant_representable tz _ _ _ 86399999 hz hpy hp0 hp1 (by omega) (le_refl _)
    (by decide) (by decide)

theorem insertSorted_perm {α : Type} (cmp : α → α → Int) (a : α) (l : List α) :
    (insertSorted cmp a l).Perm (a :: l) := by
  induction l with
  | nil => exact List.Perm.refl _
  | cons b l ih =>
    unfold insertSorted
    split_ifs
    · exact List.Perm.refl _
    · exact (List.Perm.cons b ih).trans (List.Perm.swap a b l)

theorem arraySort_perm {α : Type} (cmp : α → α → Int) (l : List α) :
    (arraySort cmp l).Perm l := by
  induction l with
  | nil => exact List.Perm.refl _
  | cons a l ih =>
    unfold arraySort
    exact (insertSorted_perm cmp a _).trans (List.Perm.cons a ih)

/-- Records in date order, most recent first. -/
theorem insertSorted_descending (a : Expense) (l : List Expense) (da : Int)
    (ha : a.date = some da) (hl : ∀ b ∈ l, ∃ db, b.date = some db)
    (hs : l.Pairwise (fun x y => ∃ dx dy, x.date = some dx ∧ y.date = some dy ∧ dy ≤ dx)) :
    (insertSorted compareDates a l).Pairwise
      (fun x y => ∃ dx dy, x.date = some dx ∧ y.date = some dy ∧ dy ≤ dx) := by
  induction l with
  | nil => exact List.pairwise_singleton _ _
  | cons b l ih =>
    obtain ⟨db, hb⟩ := hl b (List.mem_cons_self _ _)
    have hcmp : compareDates a b = db - da := by
      unfold compareDates; rw [ha, hb]
    rw [List.pairwise_cons] at hs
    unfold insertSorted
    split_ifs with hc
    · rw [List.pairwise_cons]
      refine ⟨?_, List.pairwise_cons.mpr hs⟩
      intro y hy
      rcases List.mem_cons.mp hy with e | e
      · subst e; exact ⟨da, db, ha, hb, by omega⟩
      · obtain ⟨dx, dy, h1, h2, h3⟩ := hs.1 y e
        rw [hb] at h1; cases h1
        exact ⟨da, dy, ha, h2, by omega⟩
    · rw [List.pairwise_cons]
      refine ⟨?_, ih (fun x hx => hl x (List.mem_cons_of_mem _ hx)) hs.2⟩
      intro y hy
      rcases List.mem_cons.mp ((insertSorted_perm compareDates a l).subset hy) with e | e
      · subst e; exact ⟨db, da, hb, ha, by omega⟩
      · exact hs.1 y e

theorem arraySort_descending (l : List Expense) (hl : ∀ b ∈ l, ∃ db, b.date = some db) :
    (arraySort compareDates l).Pairwise
      (fun x y => ∃ dx dy, x.date = some dx ∧ y.date = some dy ∧ dy ≤ dx) := by
  induction l with
  | nil => exact List.Pairwise.nil
  | cons a l ih =>
    obtain ⟨da, ha⟩ := hl a (List.mem_cons_self _ _)
    have hl2 : ∀ b ∈ l, ∃ db, b.date = some db := fun b hb => hl b (List.mem_cons_of_mem _ hb)
    unfold arraySort
    exact insertSorted_descending a _ da ha
      (fun b hb => hl2 b ((arraySort_perm compareDates l).subset hb)) (ih hl2)

/-- Insertion leaves the records of any one date in their order. -/
theorem insertSorted_stable (a : Expense) (l : List Expense) (d : Int) :
    (insertSorted compareDates a l).filter (fun e => decide (e.date = some d)) =
      (a :: l).filter (fun e => decide (e.date = some d)) := by
  induction l with
  | nil => rfl
  | cons b l ih =>
    unfold insertSorted
    split_ifs with hc
    · rfl
    · have hnot : ¬ (a.date = some d ∧ b.date = some d) := by
        rintro ⟨h1, h2⟩
        apply hc
        unfold compareDates; rw [h1, h2]; simp
      by_cases ha : a.date = some d
      · have hb : ¬ b.date = some d := fun h => hnot ⟨ha, h⟩
        rw [List.filter_cons_of_neg (by simpa using hb), ih,
          List.filter_cons_of_pos (by simpa using ha),
          List.filter_cons_of_pos (by simpa using ha),
          List.filter_cons_of_neg (by simpa using hb)]
      · by_cases hb : b.date = some d
        · rw [List.filter_cons_of_pos (by simpa using hb), ih,
            List.filter_cons_of_neg (by simpa using ha),
            List.filter_cons_of_neg (by simpa using ha),
            List.filter_cons_of_pos (by simpa using hb)]
        · rw [List.filter_cons_of_neg (by simpa using hb), ih,
            List.filter_cons_of_neg (by simpa using ha),
            List.filter_cons_of_neg (by simpa using ha),
            List.filter_cons_of_neg (by simpa using hb)]

theorem arraySort_stable (l : List Expense) (d : Int) :
    (arraySort compareDates l).filter (fun e => decide (e.date = some d)) =
      l.filter (fun e => decide (e.date = some d)) := by
  induction l with
  | nil => rfl
  | cons a l ih =>
    unfold arraySort
    rw [insertSorted_stable]
    by_cases ha : a.date = some d
    · rw [List.filter_cons_of_pos (by simpa using ha), List.filter_cons_of_pos (by simpa using ha),
        ih]
    · rw [List.filter_cons_of_neg (by simpa using ha), List.filter_cons_of_neg (by simpa using ha),
        ih]

/-- The test of the filter callback is the window of the specification. -/
theorem filter_test_iff (w : DateRange) (exp : Expense) :
    (jsGe exp.date w.start && jsLe exp.date w.end_) = true ↔ inWindow w exp := by
  unfold inWindow jsGe jsLe
  cases h : exp.date with
  | none => simp
  | some d => simp

theorem getMonthExpenses_eq (tz sd cur : Int) (expenses : List Expense) (w : DateRange)
    (hw : getMonthBounds tz sd cur = some w) :
    getMonthExpenses tz sd cur expenses =
      some (arraySort compareDates (expenses.filter (fun e => decide (inWindow w e)))) := by
  unfold getMonthExpenses
  rw [hw]
  simp only [Option.bind_eq_bind, Option.some_bind, Option.pure_def, Option.some.injEq]
  congr 1
  apply List.filter_congr
  intro e _
  rw [Bool.eq_iff_iff, filter_test_iff]
  simp

/-- C6: the list `getMonthExpenses` returns is ordered by date, most recent
first, and for every date the returned records of that date are the input
records of that date inside the window, in their input order. -/
theorem C6_month_expenses_sorted_stable (tz sd cur : Int) (expenses : List Expense)
    (w : DateRange) (hw : getMonthBounds tz sd cur = some w) :
    ∃ out, getMonthExpenses tz sd cur expenses = some out ∧
      out.Pairwise (fun x y => ∃ dx dy, x.date = some dx ∧ y.date = some dy ∧ dy ≤ dx) ∧
      ∀ d, out.filter (fun e => decide (e.date = some d)) =
        expenses.filter (fun e => decide (e.date = some d ∧ inWindow w e)) := by
  refine ⟨_, getMonthExpenses_eq tz sd cur expenses w hw, ?_, ?_⟩
  · apply arraySort_descending
    intro b hb
    rw [List.mem_filter, decide_eq_true_eq] at hb
    obtain ⟨d, hd, -⟩ := hb.2
    exact ⟨d, hd⟩
  · intro d
    rw [arraySort_stable, List.filter_filter]
    apply List.filter_congr
    intro e _
    simp

/-- C6, the worked example: records dated 5 January, 1 February and 20 January
2024 with the window January 2024 come back as 20 January, 5 January. -/
theorem C6_witness :
    getMonthBounds 0 1 1705320000000 = some ⟨1704067200000, 1706745599999⟩ ∧
      getMonthExpenses 0 1 1705320000000
        [⟨1, some 1704412800000⟩, ⟨2, some 1706745600000⟩, ⟨3, some 1705708800000⟩]
        = some [⟨3, some 1705708800000⟩, ⟨1, some 1704412800000⟩] ∧
      ∃ out, getMonthExpenses 0 1 1705320000000
          [⟨1, some 1704412800000⟩, ⟨2, some 1706745600000⟩, ⟨3, some 1705708800000⟩]
          = some out ∧
        out.Pairwise (fun x y => ∃ dx dy, x.date = some dx ∧ y.date = some dy ∧ dy ≤ dx) ∧
        ∀ d, out.filter (fun e => decide (e.date = some d)) =
          ([⟨1, some 1704412800000⟩, ⟨2, some 1706745600000⟩, ⟨3, some 1705708800000⟩] :
            List Expense).filter
            (fun e => decide (e.date = some d ∧ inWindow ⟨1704067200000, 1706745599999⟩ e)) :=
  ⟨by decide, by decide,
    C6_month_expenses_sorted_stable 0 1 1705320000000 _ ⟨1704067200000, 1706745599999⟩
      (by decide)⟩

/-! ## `escapeHTML` -/

/-- The replacement step of the code is the escaping of one character. -/
theorem replaceAll_cons (c : Char) (cs : List Char) :
    replaceAll (c :: cs) = escapeChar c ++ replaceAll cs := by
  have hstep : replaceAll (c :: cs) =
      if isTag c then replacement c ++ replaceAll cs else c :: replaceAll cs := rfl
  rw [hstep]
  by_cases h1 : c = '&'
  · subst h1
    rw [if_pos (by decide), show replacement '&' = escapeChar '&' from by decide]
  by_cases h2 : c = '<'
  · subst h2
    rw [if_pos (by decide), show replacement '<' = escapeChar '<' from by decide]
  by_cases h3 : c = '>'
  · subst h3
    rw [if_pos (by decide), show replacement '>' = escapeChar '>' from by decide]
  by_cases h4 : c = apostrophe
  · subst h4
    rw [if_pos (by decide),
      show replacement apostrophe = escapeChar apostrophe from by decide]
  by_cases h5 : c = doubleQuote
  · subst h5
    rw [if_pos (by decide),
      show replacement doubleQuote = escapeChar doubleQuote from by decide]
  have ht : isTag c = false := by
    unfold isTag
    simp [h1, h2, h3, h4, h5]
  have he : escapeChar c = [c] := by
    unfold escapeChar
    rw [if_neg h1, if_neg h2, if_neg h3, if_neg h4, if_neg h5]
  rw [ht, he]
  rfl

theorem replaceAll_eq_flatMap (s : List Char) : replaceAll s = s.flatMap escapeChar := by
  induction s with
  | nil => rfl
  | cons c cs ih => rw [replaceAll_cons, List.flatMap_cons, ih]

/-- The escaping of one character is an entity, or the character itself when
it is not one of the five. -/
theorem escapeChar_cases (c : Char) :
    escapeChar c ∈ entities ∨
      (escapeChar c = [c] ∧ c ≠ '&' ∧ c ≠ '<' ∧ c ≠ '>' ∧ c ≠ apostrophe ∧ c ≠ doubleQuote) := by
  unfold escapeChar
  by_cases h1 : c = '&'
  · left; rw [if_pos h1]; decide
  by_cases h2 : c = '<'
  · left; rw [if_neg h1, if_pos h2]; decide
  by_cases h3 : c = '>'
  · left; rw [if_neg h1, if_neg h2, if_pos h3]; decide
  by_cases h4 : c = apostrophe
  · left; rw [if_neg h1, if_neg h2, if_neg h3, if_pos h4]; decide
  by_cases h5 : c = doubleQuote
  · left; rw [if_neg h1, if_neg h2, if_neg h3, if_neg h4, if_pos h5]; decide
  right
  rw [if_neg h1, if_neg h2, if_neg h3, if_neg h4, if_neg h5]
  exact ⟨rfl, h1, h2, h3, h4, h5⟩

/-- An entity consists of an ampersand followed by characters that are neither
an ampersand nor one of the other four special characters. -/
theorem entity_shape (ent : List Char) (h : ent ∈ entities) :
    ∃ tl, ent = '&' :: tl ∧
      ∀ c ∈ tl, c ≠ '&' ∧ c ≠ '<' ∧ c ≠ '>' ∧ c ≠ apostrophe ∧ c ≠ doubleQuote := by
  unfold entities at h
  simp only [List.mem_cons, List.mem_singleton, List.not_mem_nil, or_false] at h
  rcases h with e | e | e | e | e <;> subst e
  · exact ⟨"amp;".toList, rfl, by decide⟩
  · exact ⟨"lt;".toList, rfl, by decide⟩
  · exact ⟨"gt;".toList, rfl, by decide⟩
  · exact ⟨"#39;".toList, rfl, by decide⟩
  · exact ⟨"quot;".toList, rfl, by decide⟩

theorem replaceAll_no_special (s : List Char) :
    ∀ c ∈ replaceAll s, c ≠ '<' ∧ c ≠ '>' ∧ c ≠ apostrophe ∧ c ≠ doubleQuote := by
  induction s with
  | nil => intro c hc; cases hc
  | cons a cs ih =>
    intro c hc
    rw [replaceAll_cons, List.mem_append] at hc
    rcases hc with hc | hc
    · rcases escapeChar_cases a with he | ⟨he, -, h2, h3, h4, h5⟩
      · obtain ⟨tl, e, htl⟩ := entity_shape _ he
        rw [e, List.mem_cons] at hc
        rcases hc with hc | hc
        · subst hc; decide
        · exact (htl c hc).2
      · rw [he, List.mem_singleton] at hc
        subst hc
        exact ⟨h2, h3, h4, h5⟩
    · exact ih c hc

/-- In a block that holds no ampersand after its head, an ampersand found
past the block lies in the rest. -/
theorem getElem_append_tail (tl rest : List Char) (i : Nat) (hno : ∀ c ∈ tl, c ≠ '&')
    (h : (tl ++ rest)[i]? = some '&') :
    tl.length ≤ i ∧ rest[i - tl.length]? = some '&' := by
  by_cases hi : i < tl.length
  · rw [List.getElem?_append_left hi] at h
    have hm : '&' ∈ tl := List.getElem?_mem h
    exact absurd rfl (hno _ hm)
  · rw [List.getElem?_append_right (not_lt.mp hi)] at h
    exact ⟨not_lt.mp hi, h⟩

theorem replaceAll_ampersand (s : List Char) :
    ∀ i, (replaceAll s)[i]? = some '&' →
      ∃ ent ∈ entities, ∃ rest, (replaceAll s).drop i = ent ++ rest := by
  induction s with
  | nil => intro i h; simp [replaceAll] at h
  | cons a cs ih =>
    intro i h
    rw [replaceAll_cons] at h ⊢
    rcases escapeChar_cases a with he | ⟨he, h1, -⟩
    · obtain ⟨tl, e, htl⟩ := entity_shape _ he
      cases i with
      | zero => exact ⟨_, he, _, rfl⟩
      | succ n =>
        rw [e] at h ⊢
        simp only [List.cons_append, List.getElem?_cons_succ, List.drop_succ_cons] at h ⊢
        obtain ⟨hle, hr⟩ := getElem_append_tail tl _ n (fun c hc => (htl c hc).1) h
        obtain ⟨ent, hent, rest, hd⟩ := ih _ hr
        refine ⟨ent, hent, rest, ?_⟩
        rw [← hd, List.drop_append_eq_append_drop, List.drop_eq_nil_of_le hle, List.nil_append]
    · rw [he] at h ⊢
      cases i with
      | zero =>
        simp only [List.singleton_append, List.getElem?_cons_zero, Option.some.injEq] at h
        exact absurd h h1
      | succ n =>
        simp only [List.singleton_append, List.getElem?_cons_succ, List.drop_succ_cons] at h ⊢
        exact ih n h

/-- C10: for every string `s`, `escapeHTML(s)` is a string that contains none
of the characters `<`, `>`, apostrophe and double quote; every `&` in it is the
first character of one of the five entities; and it is `s` with each of the
five special characters replaced by its entity and every other character kept
in place. -/
theorem C10_escapeHTML (s : List Char) :
    ∃ out, escapeHTML (JSValue.string s) = JSValue.string out ∧
      (∀ c ∈ out, c ≠ '<' ∧ c ≠ '>' ∧ c ≠ apostrophe ∧ c ≠ doubleQuote) ∧
      (∀ i, out[i]? = some '&' → ∃ ent ∈ entities, ∃ rest, out.drop i = ent ++ rest) ∧
      out = s.flatMap escapeChar :=
  ⟨replaceAll s, rfl, replaceAll_no_special s, replaceAll_ampersand s, replaceAll_eq_flatMap s⟩

end ExpenseOwl
